import Mathlib

/-!
Shallow embedding of the gitdiffparser repository (src/line_parser.rs,
src/aggregator.rs, src/main.rs).

Modelling conventions:
* Rust `HashMap<String, String>` capture maps become association lists
  (`FieldMap`) with `mapGet` / `mapInsert` / `hasKey` mirroring
  `get` / `insert` / `contains_key`.
* Each statically compiled regex of line_parser.rs is embedded as a function
  from the line to an `Option` of a structure holding exactly the named
  capture groups that participate in the match; group semantics (lazy and
  greedy repetition, optional groups, anchors) are implemented faithfully on
  the character list of the line.  The character classes are modelled as
  ASCII: a digit is one of 0..9 and whitespace is `Char.isWhitespace`;
  input lines contain no newline character, so the dot class is any char.
* Rust panics (`unwrap` on `None`, `panic!`, `unreachable!`) in the
  aggregator are modelled as `Except.error` values of the dedicated
  `AggPanic` type, one constructor per panic site.  The Rust `aggregator`
  itself returns a plain `Vec<FileDiff>` and has no error channel, so every
  `AggPanic` value represents a process abort, not a returned error.
* `str::parse::<usize>` is modelled by `parseUsize`: an optional leading
  plus sign, then one or more digits whose value must fit in 64 bits.
-/

/-- Association-list model of the Rust capture `HashMap<String, String>`. -/
abbrev FieldMap := List (String × String)

/-- Model of `HashMap::get`. -/
def mapGet : FieldMap → String → Option String
  | [], _ => none
  | (k, v) :: m, key => if k = key then some v else mapGet m key

/-- Model of `HashMap::insert` (replaces an existing binding in place). -/
def mapInsert : FieldMap → String → String → FieldMap
  | [], key, val => [(key, val)]
  | (k, v) :: m, key, val =>
    if k = key then (key, val) :: m else (k, v) :: mapInsert m key val

/-- Model of `HashMap::contains_key`. -/
def hasKey (m : FieldMap) (key : String) : Bool :=
  (mapGet m key).isSome

/-- Matches a literal prefix, returning the remainder of the character list. -/
def listDropPre : List Char → List Char → Option (List Char)
  | [], cs => some cs
  | _ :: _, [] => none
  | p :: ps, c :: cs => if c = p then listDropPre ps cs else none

/-- All characters are ASCII digits (the model of the regex class for digits). -/
def allDigits (cs : List Char) : Bool :=
  cs.all Char.isDigit

/-- Greedy run of digits and the remainder (the model of one-or-more digits). -/
def takeDigits (cs : List Char) : List Char × List Char :=
  (cs.takeWhile Char.isDigit, cs.dropWhile Char.isDigit)

/-- Removes the maximal run of trailing whitespace (the model of a lazy
any-run followed by a whitespace run and the end anchor). -/
def dropTrailingWs (cs : List Char) : List Char :=
  (cs.reverse.dropWhile Char.isWhitespace).reverse

/-- Numeric value of a digit run. -/
def digitsToNat (cs : List Char) : Nat :=
  cs.foldl (fun a c => a * 10 + (c.toNat - 48)) 0

/-- Model of Rust `str::parse::<usize>()` as used by the aggregator: an
optional leading plus sign, then a nonempty digit run whose value fits in
an unsigned 64-bit machine word. -/
def parseUsize (s : String) : Option Nat :=
  let cs := match s.data with
    | '+' :: rest => rest
    | cs => cs
  if cs ≠ [] ∧ allDigits cs then
    let n := digitsToNat cs
    if n < 18446744073709551616 then some n else none
  else none

/-- Captures of the file-diff-header regex
`diff --git a/(from_file:lazy any)(ws run) b/(to_file:lazy any)(ws run)$`. -/
structure FdhCaps where
  from_file : String
  to_file : String
  deriving Repr, DecidableEq

/-- Tries to match a whitespace run followed by the literal ` b/` at the
current position, lazily (shortest whitespace run first; at most one run
length can succeed because ` b/` itself starts with whitespace followed by
a non-whitespace character). -/
def wsThenB : List Char → Option (List Char)
  | [] => none
  | c :: rest =>
    match listDropPre (' ' :: 'b' :: '/' :: []) (c :: rest) with
    | some r => some r
    | none => if c.isWhitespace then wsThenB rest else none

/-- Lazy scan for the from_file capture: the shortest prefix after which a
whitespace run followed by ` b/` matches. -/
def fdhScan : List Char → Option (List Char × List Char)
  | [] => none
  | c :: rest =>
    match wsThenB (c :: rest) with
    | some r => some ([], r)
    | none =>
      match fdhScan rest with
      | some (pre, r) => some (c :: pre, r)
      | none => none

/-- Model of the regex `FILE_DIFF_HEADER`. -/
def FILE_DIFF_HEADER (s : String) : Option FdhCaps :=
  match listDropPre "diff --git a/".data s.data with
  | none => none
  | some rest =>
    match fdhScan rest with
    | none => none
    | some (pre, tail) => some ⟨String.mk pre, String.mk (dropTrailingWs tail)⟩

/-- Captures of the four mode-header regexes (one digit-run group `mode`). -/
structure ModeCaps where
  mode : String
  deriving Repr, DecidableEq

/-- Shared body of the four anchored mode-header regexes: a literal prefix,
then a nonempty digit run up to the end of the line. -/
def modeHeaderMatch (pre : String) (s : String) : Option ModeCaps :=
  match listDropPre pre.data s.data with
  | none => none
  | some rest =>
    if rest ≠ [] ∧ allDigits rest then some ⟨String.mk rest⟩ else none

/-- Model of the regex `OLD_MODE_HEADER`. -/
def OLD_MODE_HEADER (s : String) : Option ModeCaps :=
  modeHeaderMatch "old mode " s

/-- Model of the regex `NEW_MODE_HEADER`. -/
def NEW_MODE_HEADER (s : String) : Option ModeCaps :=
  modeHeaderMatch "new mode " s

/-- Model of the regex `NEW_FILE_MODE_HEADER`. -/
def NEW_FILE_MODE_HEADER (s : String) : Option ModeCaps :=
  modeHeaderMatch "new file mode " s

/-- Model of the regex `DELETED_FILE_MODE_HEADER`. -/
def DELETED_FILE_MODE_HEADER (s : String) : Option ModeCaps :=
  modeHeaderMatch "deleted file mode " s

/-- Captures of the index-header regex
`index (from_blob:lazy)..(to_blob:lazy)( (mode:digits))?$`. -/
structure IndexCaps where
  from_blob : String
  to_blob : String
  mode : Option String
  deriving Repr, DecidableEq

/-- Lazy split at the first occurrence of the literal `..`. -/
def splitDotDot : List Char → Option (List Char × List Char)
  | [] => none
  | c :: rest =>
    match listDropPre ('.' :: '.' :: []) (c :: rest) with
    | some r => some ([], r)
    | none =>
      match splitDotDot rest with
      | some (pre, r) => some (c :: pre, r)
      | none => none

/-- Lazy scan for the to_blob capture: stops at the earliest position where
the remaining suffix is either empty or a space followed by a nonempty digit
run reaching the end of the line (the optional mode group). -/
def idxScan : List Char → List Char × Option (List Char)
  | [] => ([], none)
  | c :: rest =>
    if c = ' ' ∧ rest ≠ [] ∧ allDigits rest then ([], some rest)
    else
      match idxScan rest with
      | (tb, m) => (c :: tb, m)

/-- Model of the regex `INDEX_DIFF_HEADER`. -/
def INDEX_DIFF_HEADER (s : String) : Option IndexCaps :=
  match listDropPre "index ".data s.data with
  | none => none
  | some rest =>
    match splitDotDot rest with
    | none => none
    | some (fb, rest2) =>
      match idxScan rest2 with
      | (tb, m) => some ⟨String.mk fb, String.mk tb, m.map String.mk⟩

/-- Captures of the binary-diff regex
`Binary files (from_file:greedy) and (to_file:greedy) differ$` (unanchored
at the start). -/
structure BinCaps where
  from_file : String
  to_file : String
  deriving Repr, DecidableEq

/-- First position where the given literal matches; returns the remainder. -/
def findMarker (pat : List Char) : List Char → Option (List Char)
  | [] => listDropPre pat []
  | c :: rest =>
    match listDropPre pat (c :: rest) with
    | some r => some r
    | none => findMarker pat rest

/-- Removes a literal suffix if present (the model of a trailing literal
before the end anchor). -/
def dropSuffixLit (cs suffix : List Char) : Option (List Char) :=
  match listDropPre suffix.reverse cs.reverse with
  | some r => some r.reverse
  | none => none

/-- Split at the last occurrence of the given literal (greedy repetition
before the literal). -/
def lastSplit (pat : List Char) : List Char → Option (List Char × List Char)
  | [] => none
  | c :: rest =>
    match lastSplit pat rest with
    | some (pre, post) => some (c :: pre, post)
    | none =>
      match listDropPre pat (c :: rest) with
      | some r => some (([] : List Char), r)
      | none => none

/-- Model of the regex `BINARY_DIFF`. -/
def BINARY_DIFF (s : String) : Option BinCaps :=
  match findMarker "Binary files ".data s.data with
  | none => none
  | some rest =>
    match dropSuffixLit rest " differ".data with
    | none => none
    | some mid =>
      match lastSplit " and ".data mid with
      | none => none
      | some (ff, tf) => some ⟨String.mk ff, String.mk tf⟩

/-- Captures of the two file-change-header regexes: the optional group
`file` participates only in the second alternative, not in the
dev-null alternative. -/
structure FileCaps where
  file : Option String
  deriving Repr, DecidableEq

/-- Shared body of the two anchored file-change-header regexes: a literal
four-character prefix, then either the literal `/dev/null` or a one-letter
side prefix followed by the lazily captured path and trailing whitespace. -/
def fileChangeMatch (pre side : String) (s : String) : Option FileCaps :=
  match listDropPre pre.data s.data with
  | none => none
  | some rest =>
    if rest = "/dev/null".data then some ⟨none⟩
    else
      match listDropPre side.data rest with
      | some r => some ⟨some (String.mk (dropTrailingWs r))⟩
      | none => none

/-- Model of the regex `A_FILE_CHANGE_HEADER`. -/
def A_FILE_CHANGE_HEADER (s : String) : Option FileCaps :=
  fileChangeMatch "--- " "a/" s

/-- Model of the regex `B_FILE_CHANGE_HEADER`. -/
def B_FILE_CHANGE_HEADER (s : String) : Option FileCaps :=
  fileChangeMatch "+++ " "b/" s

/-- Captures of the chunk-header regex. -/
structure ChunkCaps where
  from_line_start : String
  from_line_count : Option String
  to_line_start : String
  to_line_count : Option String
  line : String
  deriving Repr, DecidableEq

/-- Optional `,digits` group after a start number; consumed only when a
comma with a nonempty digit run follows, exactly as the greedy optional
group behaves with the following literal space. -/
def optCount : List Char → Option (List Char) × List Char
  | ',' :: rest =>
    match takeDigits rest with
    | (d, r) => if d = [] then (none, ',' :: rest) else (some d, r)
  | cs => (none, cs)

/-- Model of the regex `CHUNK_HEADER`. -/
def CHUNK_HEADER (s : String) : Option ChunkCaps :=
  match listDropPre "@@ -".data s.data with
  | none => none
  | some r0 =>
    match takeDigits r0 with
    | (d1, r1) =>
      if d1 = [] then none
      else
        match optCount r1 with
        | (fc, r2) =>
          match listDropPre " +".data r2 with
          | none => none
          | some r3 =>
            match takeDigits r3 with
            | (d2, r4) =>
              if d2 = [] then none
              else
                match optCount r4 with
                | (tc, r5) =>
                  match listDropPre " @@".data r5 with
                  | none => none
                  | some r6 =>
                    some ⟨String.mk d1, fc.map String.mk, String.mk d2,
                          tc.map String.mk, String.mk r6⟩

/-- Captures of the line-diff regex `(action:[minus plus space])(line:any)$`. -/
structure LineDiffCaps where
  action : String
  line : String
  deriving Repr, DecidableEq

/-- Model of the regex `LINE_DIFF`. -/
def LINE_DIFF (s : String) : Option LineDiffCaps :=
  match s.data with
  | [] => none
  | c :: rest =>
    if c = '-' ∨ c = '+' ∨ c = ' ' then
      some ⟨String.mk [c], String.mk rest⟩
    else none

/-- Model of the regex `NO_NEWLINE` (an exact literal, no capture groups). -/
def NO_NEWLINE (s : String) : Bool :=
  s = "\\ No newline at end of file"

/-- Captures of the rename-header regex `similarity index (rate:digit run)`,
unanchored at the end with a possibly empty greedy digit run. -/
structure RateCaps where
  rate : String
  deriving Repr, DecidableEq

/-- Model of the regex `RENAME_HEADER`. -/
def RENAME_HEADER (s : String) : Option RateCaps :=
  match listDropPre "similarity index ".data s.data with
  | none => none
  | some rest => some ⟨String.mk (takeDigits rest).1⟩

/-- Captures of the rename-from regex; the trailing lazy any-run at the end
of the pattern always captures the empty string. -/
structure RFromCaps where
  from_file : String
  deriving Repr, DecidableEq

/-- Model of the regex `RENAME_A_FILE`. -/
def RENAME_A_FILE (s : String) : Option RFromCaps :=
  match listDropPre "rename from ".data s.data with
  | none => none
  | some _ => some ⟨""⟩

/-- Captures of the rename-to regex; as for rename-from, the lazy any-run
captures the empty string. -/
structure RToCaps where
  to_file : String
  deriving Repr, DecidableEq

/-- Model of the regex `RENAME_B_FILE`. -/
def RENAME_B_FILE (s : String) : Option RToCaps :=
  match listDropPre "rename to ".data s.data with
  | none => none
  | some _ => some ⟨""⟩

/-- Association list of a single optional capture group, empty when the
group did not participate (the filter over participating names in
`captures_to_map`). -/
def optField (key : String) : Option String → FieldMap
  | none => []
  | some v => [(key, v)]

/-- The capture map of `FILE_DIFF_HEADER`, in capture-group order. -/
def fdhMap (c : FdhCaps) : FieldMap :=
  [("from_file", c.from_file), ("to_file", c.to_file)]

/-- The capture map of the four mode-header regexes. -/
def modeMap (c : ModeCaps) : FieldMap :=
  [("mode", c.mode)]

/-- The capture map of `INDEX_DIFF_HEADER`. -/
def indexMap (c : IndexCaps) : FieldMap :=
  [("from_blob", c.from_blob), ("to_blob", c.to_blob)] ++ optField "mode" c.mode

/-- The capture map of `BINARY_DIFF`. -/
def binMap (c : BinCaps) : FieldMap :=
  [("from_file", c.from_file), ("to_file", c.to_file)]

/-- The capture map of the two file-change-header regexes. -/
def fileMap (c : FileCaps) : FieldMap :=
  optField "file" c.file

/-- The raw capture map of `CHUNK_HEADER`, before the defaulting performed
in `parse_line`. -/
def chunkMap (c : ChunkCaps) : FieldMap :=
  [("from_line_start", c.from_line_start)] ++
    optField "from_line_count" c.from_line_count ++
    [("to_line_start", c.to_line_start)] ++
    optField "to_line_count" c.to_line_count ++
    [("line", c.line)]

/-- The capture map of `LINE_DIFF`. -/
def lineDiffMap (c : LineDiffCaps) : FieldMap :=
  [("action", c.action), ("line", c.line)]

/-- The capture map of `RENAME_HEADER`. -/
def rateMap (c : RateCaps) : FieldMap :=
  [("rate", c.rate)]

/-- The capture map of `RENAME_A_FILE`. -/
def rFromMap (c : RFromCaps) : FieldMap :=
  [("from_file", c.from_file)]

/-- The capture map of `RENAME_B_FILE`. -/
def rToMap (c : RToCaps) : FieldMap :=
  [("to_file", c.to_file)]

/-- Reinserts the current value of a key, mirroring the get-then-insert
pairs at the end of the chunk-header branch of `parse_line`; on a map that
already holds the key this replaces the binding with itself.  The Rust code
unwraps the get, which cannot fail there because the key was just ensured. -/
def reinsertKey (m : FieldMap) (key : String) : FieldMap :=
  match mapGet m key with
  | some v => mapInsert m key v
  | none => m

/-- The chunk-header capture map after the defaulting done inline in the
chunk-header branch of `parse_line`: a missing count on either side becomes
the string one, and a missing to-side start would default to the from-side
start (dead in practice since the regex always captures the to-side start). -/
def chunkFieldMap (c : ChunkCaps) : FieldMap :=
  let m0 := chunkMap c
  let m1 := if hasKey m0 "from_line_count" then m0
            else mapInsert m0 "from_line_count" "1"
  let m2 := if hasKey m1 "to_line_count" then m1
            else mapInsert m1 "to_line_count" "1"
  let m3 := if hasKey m2 "to_line_start" then m2
            else
              match mapGet m2 "from_line_start" with
              | some v => mapInsert m2 "to_line_start" v
              | none => m2
  let m4 := reinsertKey m3 "from_line_start"
  let m5 := reinsertKey m4 "from_line_count"
  let m6 := reinsertKey m5 "to_line_start"
  reinsertKey m6 "to_line_count"

/-- Model of the `ParseError` enum of line_parser.rs. -/
inductive ParseError where
  | expected : String → ParseError
  | lineParseError : Nat → String → ParseError
  deriving Repr, DecidableEq

/-- Discriminator for the `Expected` variant of `ParseError`. -/
def ParseError.isExpected : ParseError → Bool
  | .expected _ => true
  | .lineParseError _ _ => false

/-- The result type of `parse_line`: the produced state tag and capture map. -/
abbrev ParseR := String × FieldMap

/-- The allowed previous states of the file-diff-header production (the
`states` array at the top of `parse_line`). -/
def tokStates : List String :=
  ["start_of_file", "new_mode_header", "line_diff", "no_newline",
   "index_diff_header", "binary_diff", "rename_b_file"]

/-- The allowed previous states of the rename-header and index-header
productions. -/
def idxStates : List String :=
  ["rename_b_file", "file_diff_header", "new_mode_header",
   "new_file_mode_header", "deleted_file_mode_header"]

/-- Model of `parse_line` of line_parser.rs: classifies one line given the
previously produced state, following the source's chain of early returns. -/
def parse_line (line : String) (prev_state : String) : Except ParseError ParseR :=
  match (if prev_state ∈ tokStates then FILE_DIFF_HEADER line else none) with
  | some c => .ok ("file_diff_header", fdhMap c)
  | none =>
  if prev_state ∈ tokStates ∧ prev_state = "start_of_file" then
    .error (.expected "expected file diff header")
  else
  match (if prev_state = "file_diff_header" then OLD_MODE_HEADER line else none) with
  | some c => .ok ("old_mode_header", modeMap c)
  | none =>
  if prev_state = "old_mode_header" then
    match NEW_MODE_HEADER line with
    | some c => .ok ("new_mode_header", modeMap c)
    | none => .error (.expected "expected new_mode_header")
  else
  match (if prev_state = "file_diff_header" then NEW_FILE_MODE_HEADER line else none) with
  | some c => .ok ("new_file_mode_header", modeMap c)
  | none =>
  match (if prev_state = "file_diff_header" then DELETED_FILE_MODE_HEADER line else none) with
  | some c => .ok ("deleted_file_mode_header", modeMap c)
  | none =>
  if prev_state ∈ idxStates then
    match RENAME_HEADER line with
    | some c => .ok ("rename_header", rateMap c)
    | none =>
      match INDEX_DIFF_HEADER line with
      | some c => .ok ("index_diff_header", indexMap c)
      | none => .error (.expected "expected index_diff_header")
  else
  match (if prev_state = "rename_header" then RENAME_A_FILE line else none) with
  | some c => .ok ("rename_a_file", rFromMap c)
  | none =>
  match (if prev_state = "rename_a_file" then RENAME_B_FILE line else none) with
  | some c => .ok ("rename_b_file", rToMap c)
  | none =>
  match (if prev_state = "index_diff_header" then BINARY_DIFF line else none) with
  | some c => .ok ("binary_diff", binMap c)
  | none =>
  if prev_state = "index_diff_header" then
    match A_FILE_CHANGE_HEADER line with
    | some c => .ok ("a_file_change_header", fileMap c)
    | none => .error (.expected "expected a_file_change_header")
  else
  if prev_state = "a_file_change_header" then
    match B_FILE_CHANGE_HEADER line with
    | some c => .ok ("b_file_change_header", fileMap c)
    | none => .error (.expected "expected b_file_change_header")
  else
  match (if prev_state ∈ ["b_file_change_header", "line_diff", "no_newline"]
         then CHUNK_HEADER line else none) with
  | some c => .ok ("chunk_header", chunkFieldMap c)
  | none =>
  if prev_state = "b_file_change_header" then
    .error (.expected "expected chunk_header")
  else
  match (if prev_state ∈ ["chunk_header", "line_diff", "no_newline"]
         then LINE_DIFF line else none) with
  | some c => .ok ("line_diff", lineDiffMap c)
  | none =>
  if prev_state ∈ ["chunk_header", "line_diff"] then
    if NO_NEWLINE line then .ok ("NO_NEWLINE", ([] : FieldMap))
    else .error (.expected "expected line_diff or no_newline")
  else
  .error (.expected ("can\x27t parse line with prev_state \"" ++ prev_state ++ "\""))

/-- One tokenized event: the state tag, the capture map and the raw line. -/
abbrev DiffEvent := String × FieldMap × String

/-- The loop body of `parse_lines`: folds the lines threading the previous
state, collecting events, stopping at the first failing line with a
`LineParseError` holding the one-based index and the raw line (the error of
`parse_line` itself is discarded). -/
def parseLinesAux : String → Nat → List String → Except ParseError (List DiffEvent)
  | _, _, [] => .ok []
  | st, idx, l :: ls =>
    match parse_line l st with
    | .ok (n_state, parsed) =>
      match parseLinesAux n_state (idx + 1) ls with
      | .ok rest => .ok ((n_state, parsed, l) :: rest)
      | .error e => .error e
    | .error _ => .error (.lineParseError (idx + 1) l)

/-- Model of `parse_lines` of line_parser.rs. -/
def parse_lines (lines : List String) : Except ParseError (List DiffEvent) :=
  parseLinesAux "start_of_file" 0 lines

/-- The tokenizer state after a list of already-emitted events, starting
from the given state: the state tag of the last event (the loop of
`parse_lines` sets its state to each newly produced state). -/
def lastStateD (d : String) : List DiffEvent → String
  | [] => d
  | ev :: evs => lastStateD ev.1 evs

/-- Model of the `DiffAction` enum of aggregator.rs. -/
inductive DiffAction where
  | delete
  | add
  | context
  deriving Repr, DecidableEq

/-- Model of `DiffAction::from_str`. -/
def DiffAction.from_str (s : String) : Except String DiffAction :=
  if s = "-" then .ok .delete
  else if s = "+" then .ok .add
  else if s = " " then .ok .context
  else .error ("unknown diff action: \"" ++ s ++ "\"")

/-- Model of the `ChunkDiffLine` struct of aggregator.rs. -/
structure ChunkDiffLine where
  from_line_number : Nat
  to_line_number : Nat
  line : String
  action : DiffAction
  deriving Repr, DecidableEq

/-- Model of the `LinePoint` struct of aggregator.rs. -/
structure LinePoint where
  line_start : Nat
  line_count : Nat
  deriving Repr, DecidableEq

/-- Model of the `ChunkDiff` struct of aggregator.rs. -/
structure ChunkDiff where
  «from» : LinePoint
  «to» : LinePoint
  lines : List ChunkDiffLine
  deriving Repr, DecidableEq

/-- Model of the `ChunkMeta` struct of aggregator.rs (the running line
counters of the current chunk). -/
structure ChunkMeta where
  from_line_number : Nat
  to_line_number : Nat
  deriving Repr, DecidableEq

/-- Model of the `FileDiffPoint` struct of aggregator.rs. -/
structure FileDiffPoint where
  file : String
  mode : Option String
  blob : Option String
  end_newline : Bool
  deriving Repr, DecidableEq

/-- Model of the `FileDiff` struct of aggregator.rs. -/
structure FileDiff where
  «from» : FileDiffPoint
  «to» : FileDiffPoint
  is_binary : Bool
  chunks : List ChunkDiff
  deriving Repr, DecidableEq

/-- Model of the `FileMeta` struct of aggregator.rs (the per-file counter of
no-newline markers). -/
structure FileMeta where
  no_newline_count : Nat
  deriving Repr, DecidableEq

/-- One panic site of the Rust `aggregator` function.  The Rust function
returns a plain vector, so each of these values models a process abort:
`missingField` an `unwrap` of a failed capture lookup, `badAction` the
`unwrap` of `DiffAction::from_str`, `badNum` the `unwrap` of
`str::parse::<usize>`, `pathMismatch` the `panic!` in the file-change-header
check, `tooManyNoNewline` the `panic!` on a third no-newline marker,
`unreachableBranch` an `unreachable!()` for absent working state, and
`unexpectedState` the final `unreachable!` for an event state without a
handling branch. -/
inductive AggPanic where
  | missingField : String → AggPanic
  | badAction : String → AggPanic
  | badNum : String → AggPanic
  | pathMismatch : AggPanic
  | tooManyNoNewline : AggPanic
  | unreachableBranch : String → AggPanic
  | unexpectedState : String → AggPanic
  deriving Repr, DecidableEq

/-- The local mutable state of the `aggregator` loop. -/
structure AggState where
  file_diff : Option FileDiff
  file_meta : Option FileMeta
  chunk_diff : Option ChunkDiff
  chunk_meta : Option ChunkMeta
  file_diffs : List FileDiff
  deriving Repr, DecidableEq

/-- The initial aggregator state. -/
def aggInit : AggState :=
  ⟨none, none, none, none, []⟩

/-- The file-diff-header branch of the `aggregator` loop: flush the
in-progress document, then start a fresh one from the captured paths. -/
def aggFileDiffHeader (st : AggState) (parsed : FieldMap) : Except AggPanic AggState :=
  let st1 :=
    match st.file_diff with
    | some diff =>
      { st with file_diffs := st.file_diffs ++ [diff],
                chunk_diff := none, chunk_meta := none }
    | none => st
  match mapGet parsed "from_file" with
  | none => .error (.missingField "from_file")
  | some ff =>
    match mapGet parsed "to_file" with
    | none => .error (.missingField "to_file")
    | some tf =>
      .ok { st1 with
            file_meta := some ⟨0⟩,
            file_diff := some ⟨⟨ff, none, none, true⟩,
                               ⟨tf, none, none, true⟩, false, []⟩ }

/-- The new-file-mode branch: zero-mode sentinel on the from side, the
captured mode on the to side. -/
def aggNewFileMode (st : AggState) (parsed : FieldMap) : Except AggPanic AggState :=
  match mapGet parsed "mode" with
  | none => .error (.missingField "mode")
  | some mo =>
    match st.file_diff with
    | none => .error (.unreachableBranch "new_file_mode_header")
    | some fd =>
      .ok { st with file_diff := some (
              { fd with «from» := { fd.«from» with mode := some "0000000" },
                         «to» := { fd.«to» with mode := some mo } }) }

/-- The old-mode branch: the captured mode on the from side. -/
def aggOldMode (st : AggState) (parsed : FieldMap) : Except AggPanic AggState :=
  match mapGet parsed "mode" with
  | none => .error (.missingField "mode")
  | some mo =>
    match st.file_diff with
    | none => .error (.unreachableBranch "old_mode_header")
    | some fd =>
      .ok { st with file_diff := some ({ fd with «from» := { fd.«from» with mode := some mo } }) }

/-- The new-mode branch: the captured mode on the to side. -/
def aggNewMode (st : AggState) (parsed : FieldMap) : Except AggPanic AggState :=
  match mapGet parsed "mode" with
  | none => .error (.missingField "mode")
  | some mo =>
    match st.file_diff with
    | none => .error (.unreachableBranch "new_mode_header")
    | some fd =>
      .ok { st with file_diff := some ({ fd with «to» := { fd.«to» with mode := some mo } }) }

/-- The deleted-file-mode branch: the captured mode on the from side and the
zero-mode sentinel on the to side. -/
def aggDeletedFileMode (st : AggState) (parsed : FieldMap) : Except AggPanic AggState :=
  match mapGet parsed "mode" with
  | none => .error (.missingField "mode")
  | some mo =>
    match st.file_diff with
    | none => .error (.unreachableBranch "deleted_file_mode_header")
    | some fd =>
      .ok { st with file_diff := some (
              { fd with «from» := { fd.«from» with mode := some mo },
                         «to» := { fd.«to» with mode := some "0000000" } }) }

/-- The two file-change-header branches: check the captured path, when
present, against the path recorded on the corresponding endpoint; a
mismatch is the `panic!` modelled by `pathMismatch`. -/
def aggFileChange (st : AggState) (state : String) (parsed : FieldMap) :
    Except AggPanic AggState :=
  match st.file_diff with
  | none => .ok st
  | some fd =>
    let file := if state = "a_file_change_header" then fd.«from».file
                else fd.«to».file
    let f := mapGet parsed "file"
    if f ≠ none ∧ f ≠ some file then .error .pathMismatch else .ok st

/-- The binary-diff branch: mark the current document binary. -/
def aggBinary (st : AggState) : Except AggPanic AggState :=
  match st.file_diff with
  | none => .ok st
  | some fd =>
    .ok { st with file_diff := some ({ fd with is_binary := true }) }

/-- The index-header branch: record the two blobs and, when the optional
mode capture is present, both modes. -/
def aggIndex (st : AggState) (parsed : FieldMap) : Except AggPanic AggState :=
  match st.file_diff with
  | none => .error (.unreachableBranch "index_diff_header")
  | some fd =>
    match mapGet parsed "from_blob" with
    | none => .error (.missingField "from_blob")
    | some fb =>
      match mapGet parsed "to_blob" with
      | none => .error (.missingField "to_blob")
      | some tb =>
        let fd1 := { fd with «from» := { fd.«from» with blob := some fb },
                             «to» := { fd.«to» with blob := some tb } }
        match mapGet parsed "mode" with
        | some mo =>
          .ok { st with file_diff := some (
                  { fd1 with «from» := { fd1.«from» with mode := some mo },
                              «to» := { fd1.«to» with mode := some mo } }) }
        | none => .ok { st with file_diff := some fd1 }

/-- The chunk-header branch: reset the running counters, build the new
`ChunkDiff` and push it onto the current document while also storing it in
`chunk_diff`, mirroring the clone-then-push of the source. -/
def aggChunkHeader (st : AggState) (parsed : FieldMap) : Except AggPanic AggState :=
  match mapGet parsed "from_line_start" with
  | none => .error (.missingField "from_line_start")
  | some fls =>
    match mapGet parsed "to_line_start" with
    | none => .error (.missingField "to_line_start")
    | some tls =>
      match parseUsize fls with
      | none => .error (.badNum fls)
      | some flsN =>
        match parseUsize tls with
        | none => .error (.badNum tls)
        | some tlsN =>
          match mapGet parsed "from_line_count" with
          | none => .error (.missingField "from_line_count")
          | some flc =>
            match mapGet parsed "to_line_count" with
            | none => .error (.missingField "to_line_count")
            | some tlc =>
              match parseUsize flc with
              | none => .error (.badNum flc)
              | some flcN =>
                match parseUsize tlc with
                | none => .error (.badNum tlc)
                | some tlcN =>
                  let diff : ChunkDiff := ⟨⟨flsN, flcN⟩, ⟨tlsN, tlcN⟩, []⟩
                  match st.file_diff with
                  | none => .error (.unreachableBranch "chunk_header")
                  | some fd =>
                    .ok { st with
                          chunk_meta := some ⟨flsN, tlsN⟩,
                          chunk_diff := some diff,
                          file_diff := some ({ fd with chunks := fd.chunks ++ [diff] }) }

/-- The line-diff branch: build a `ChunkDiffLine` from the running counters
and append it to the standalone `chunk_diff` value only (the chunk already
pushed onto the document is a separate copy and keeps its empty line list);
then advance the counters by the action, and reconcile the trailing-newline
flags when the per-file no-newline counter is positive. -/
def aggLineDiff (st : AggState) (parsed : FieldMap) : Except AggPanic AggState :=
  match st.chunk_meta with
  | none => .error (.unreachableBranch "line_diff chunk_meta")
  | some cm =>
    match mapGet parsed "action" with
    | none => .error (.missingField "action")
    | some a =>
      match DiffAction.from_str a with
      | .error e => .error (.badAction e)
      | .ok act =>
        match mapGet parsed "line" with
        | none => .error (.missingField "line")
        | some ln =>
          match st.chunk_diff with
          | none => .error (.unreachableBranch "line_diff chunk_diff")
          | some cd =>
            let cdl : ChunkDiffLine :=
              ⟨cm.from_line_number, cm.to_line_number, ln, act⟩
            let cd1 := { cd with lines := cd.lines ++ [cdl] }
            let cm1 :=
              if a = " " ∨ a = "-" then
                { cm with from_line_number := cm.from_line_number + 1 }
              else cm
            let cm2 :=
              if a = " " ∨ a = "+" then
                { cm1 with to_line_number := cm1.to_line_number + 1 }
              else cm1
            let fd1 :=
              match st.file_meta, st.file_diff with
              | some fm, some fd =>
                if fm.no_newline_count > 0 then
                  some { fd with
                         «from» := { fd.«from» with end_newline := true },
                         «to» := { fd.«to» with end_newline := true } }
                else st.file_diff
              | _, _ => st.file_diff
            .ok { st with chunk_diff := some cd1, chunk_meta := some cm2,
                          file_diff := fd1 }

/-- The no-newline branch: bump the per-file counter, with the `panic!` on
a third marker, and clear the trailing-newline flag of the to side. -/
def aggNoNewline (st : AggState) : Except AggPanic AggState :=
  match st.file_meta with
  | none => .error (.unreachableBranch "no_newline file_meta")
  | some fm =>
    let fm1 : FileMeta := ⟨fm.no_newline_count + 1⟩
    if fm1.no_newline_count > 2 then .error .tooManyNoNewline
    else
      match st.file_diff with
      | none => .error (.unreachableBranch "no_newline file_diff")
      | some fd =>
        .ok { st with file_meta := some fm1,
                      file_diff := some ({ fd with «to» := { fd.«to» with end_newline := false } }) }

/-- One iteration of the `aggregator` loop of aggregator.rs, dispatching on
the event state exactly in the source order of the branch tests; every Rust
panic becomes an `AggPanic` error through the branch functions above, and
an event state with no branch is the final `unreachable!` panic. -/
def aggStep (st : AggState) (ev : DiffEvent) : Except AggPanic AggState :=
  let state := ev.1
  let parsed := ev.2.1
  if state = "file_diff_header" then aggFileDiffHeader st parsed
  else if state = "new_file_mode_header" then aggNewFileMode st parsed
  else if state = "old_mode_header" then aggOldMode st parsed
  else if state = "new_mode_header" then aggNewMode st parsed
  else if state = "deleted_file_mode_header" then aggDeletedFileMode st parsed
  else if state = "a_file_change_header" ∨ state = "b_file_change_header" then
    aggFileChange st state parsed
  else if state = "binary_diff" then aggBinary st
  else if state = "index_diff_header" then aggIndex st parsed
  else if state = "chunk_header" then aggChunkHeader st parsed
  else if state = "line_diff" then aggLineDiff st parsed
  else if state = "no_newline" then aggNoNewline st
  else .error (.unexpectedState state)

/-- The `aggregator` loop: folds events through `aggStep`, stopping at the
first panic. -/
def aggLoop : AggState → List DiffEvent → Except AggPanic AggState
  | st, [] => .ok st
  | st, ev :: evs =>
    match aggStep st ev with
    | .ok st1 => aggLoop st1 evs
    | .error e => .error e

/-- Model of `aggregator` of aggregator.rs: the collected documents, with
the in-progress document flushed at the end of the event stream. -/
def aggregator (evs : List DiffEvent) : Except AggPanic (List FileDiff) :=
  match aggLoop aggInit evs with
  | .error e => .error e
  | .ok st => .ok (st.file_diffs ++ st.file_diff.toList)

/-- An error of the whole two-stage pipeline of main.rs: either the
tokenizer's parse error (main unwraps it and the process exits) or an
aggregator panic. -/
inductive PipelineError where
  | parse : ParseError → PipelineError
  | agg : AggPanic → PipelineError
  deriving Repr, DecidableEq

/-- Model of the pipeline of main.rs: tokenize all lines, then aggregate the
full event sequence. -/
def pipeline (lines : List String) : Except PipelineError (List FileDiff) :=
  match parse_lines lines with
  | .error e => .error (.parse e)
  | .ok evs =>
    match aggregator evs with
    | .error p => .error (.agg p)
    | .ok docs => .ok docs

/-- A document whose chunks all carry an empty line list. -/
def docLinesEmptyB (d : FileDiff) : Bool :=
  d.chunks.all (fun c => c.lines.isEmpty)

/-- Invariant of the aggregator state: every chunk already stored in a
document (finished or in progress) has an empty line list.  The lines
appended by the line-diff branch go only to the standalone `chunk_diff`
copy, which is never read back into a document. -/
def aggChunksEmptyB (st : AggState) : Bool :=
  st.file_diffs.all docLinesEmptyB &&
    (match st.file_diff with
     | some d => docLinesEmptyB d
     | none => true)

/-- The action field of a line-diff event is accepted by
`DiffAction.from_str`. -/
def actionOkB (m : FieldMap) : Bool :=
  match mapGet m "action" with
  | some a =>
    (match DiffAction.from_str a with
     | .ok _ => true
     | .error _ => false)
  | none => false

/-- The per-state field obligations of the aggregator: exactly the capture
lookups that `aggregator` unwraps unconditionally for each event state,
plus acceptance of the line-diff action by `DiffAction.from_str`. -/
def fieldsOkB (ev : DiffEvent) : Bool :=
  if ev.1 = "file_diff_header" then
    hasKey ev.2.1 "from_file" && hasKey ev.2.1 "to_file"
  else if ev.1 = "new_file_mode_header" ∨ ev.1 = "old_mode_header" ∨
          ev.1 = "new_mode_header" ∨ ev.1 = "deleted_file_mode_header" then
    hasKey ev.2.1 "mode"
  else if ev.1 = "index_diff_header" then
    hasKey ev.2.1 "from_blob" && hasKey ev.2.1 "to_blob"
  else if ev.1 = "chunk_header" then
    hasKey ev.2.1 "from_line_start" && hasKey ev.2.1 "from_line_count" &&
      hasKey ev.2.1 "to_line_start" && hasKey ev.2.1 "to_line_count"
  else if ev.1 = "line_diff" then
    actionOkB ev.2.1 && hasKey ev.2.1 "line"
  else true

/-- Truth of an `Except` being a success. -/
def isOkE {ε α : Type} : Except ε α → Bool
  | .ok _ => true
  | .error _ => false

/-- The nine-line concrete scenario input of the specification. -/
def scenarioLines : List String :=
  ["diff --git a/foo.txt b/foo.txt",
   "index e69de29..4b825dc 100644",
   "--- a/foo.txt",
   "+++ b/foo.txt",
   "@@ -1,2 +1,3 @@",
   " line1",
   "-line2",
   "+line2 modified",
   "+line3"]

/-- The event sequence the tokenizer produces for `scenarioLines`. -/
def scenarioEvents : List DiffEvent :=
  [("file_diff_header", [("from_file", "foo.txt"), ("to_file", "foo.txt")],
    "diff --git a/foo.txt b/foo.txt"),
   ("index_diff_header",
    [("from_blob", "e69de29"), ("to_blob", "4b825dc"), ("mode", "100644")],
    "index e69de29..4b825dc 100644"),
   ("a_file_change_header", [("file", "foo.txt")], "--- a/foo.txt"),
   ("b_file_change_header", [("file", "foo.txt")], "+++ b/foo.txt"),
   ("chunk_header",
    [("from_line_start", "1"), ("from_line_count", "2"),
     ("to_line_start", "1"), ("to_line_count", "3"), ("line", "")],
    "@@ -1,2 +1,3 @@"),
   ("line_diff", [("action", " "), ("line", "line1")], " line1"),
   ("line_diff", [("action", "-"), ("line", "line2")], "-line2"),
   ("line_diff", [("action", "+"), ("line", "line2 modified")], "+line2 modified"),
   ("line_diff", [("action", "+"), ("line", "line3")], "+line3")]

/-- The document the pipeline actually produces for `scenarioLines`: all
header-level fields are as the specification expects, but the single
chunk's line list is empty. -/
def scenarioDoc : FileDiff :=
  ⟨⟨"foo.txt", some "100644", some "e69de29", true⟩,
   ⟨"foo.txt", some "100644", some "4b825dc", true⟩,
   false,
   [⟨⟨1, 2⟩, ⟨1, 3⟩, []⟩]⟩

/-- The file-diff-header branch preserves the empty-chunk-lines invariant:
the flushed document comes from `file_diff`, where the invariant already
held, and the fresh document has no chunks. -/
theorem branch_chunksEmpty_fdh {st st1 : AggState} {parsed : FieldMap}
    (h1 : aggChunksEmptyB st = true)
    (h2 : aggFileDiffHeader st parsed = .ok st1) : aggChunksEmptyB st1 = true := by
  unfold aggFileDiffHeader at h2
  repeat' split at h2
  all_goals (try cases h2)
  all_goals (try simp_all [aggChunksEmptyB, docLinesEmptyB, List.all_append])
  all_goals (first | exact h1.1 | exact h1)

/-- The new-file-mode branch leaves every chunk list unchanged. -/
theorem branch_chunksEmpty_nfm {st st1 : AggState} {parsed : FieldMap}
    (h1 : aggChunksEmptyB st = true)
    (h2 : aggNewFileMode st parsed = .ok st1) : aggChunksEmptyB st1 = true := by
  unfold aggNewFileMode at h2
  repeat' split at h2
  all_goals (try cases h2)
  all_goals (try simp_all [aggChunksEmptyB, docLinesEmptyB, List.all_append])
  all_goals (first | exact h1.1 | exact h1)

/-- The old-mode branch leaves every chunk list unchanged. -/
theorem branch_chunksEmpty_om {st st1 : AggState} {parsed : FieldMap}
    (h1 : aggChunksEmptyB st = true)
    (h2 : aggOldMode st parsed = .ok st1) : aggChunksEmptyB st1 = true := by
  unfold aggOldMode at h2
  repeat' split at h2
  all_goals (try cases h2)
  all_goals (try simp_all [aggChunksEmptyB, docLinesEmptyB, List.all_append])
  all_goals (first | exact h1.1 | exact h1)

/-- The new-mode branch leaves every chunk list unchanged. -/
theorem branch_chunksEmpty_nm {st st1 : AggState} {parsed : FieldMap}
    (h1 : aggChunksEmptyB st = true)
    (h2 : aggNewMode st parsed = .ok st1) : aggChunksEmptyB st1 = true := by
  unfold aggNewMode at h2
  repeat' split at h2
  all_goals (try cases h2)
  all_goals (try simp_all [aggChunksEmptyB, docLinesEmptyB, List.all_append])
  all_goals (first | exact h1.1 | exact h1)

/-- The deleted-file-mode branch leaves every chunk list unchanged. -/
theorem branch_chunksEmpty_dfm {st st1 : AggState} {parsed : FieldMap}
    (h1 : aggChunksEmptyB st = true)
    (h2 : aggDeletedFileMode st parsed = .ok st1) : aggChunksEmptyB st1 = true := by
  unfold aggDeletedFileMode at h2
  repeat' split at h2
  all_goals (try cases h2)
  all_goals (try simp_all [aggChunksEmptyB, docLinesEmptyB, List.all_append])
  all_goals (first | exact h1.1 | exact h1)

/-- The file-change-header branches return the state unchanged on success. -/
theorem branch_chunksEmpty_fc {st st1 : AggState} {state : String} {parsed : FieldMap}
    (h1 : aggChunksEmptyB st = true)
    (h2 : aggFileChange st state parsed = .ok st1) : aggChunksEmptyB st1 = true := by
  unfold aggFileChange at h2
  dsimp only at h2
  repeat' split at h2
  all_goals (try cases h2)
  all_goals exact h1

/-- The binary-diff branch leaves every chunk list unchanged. -/
theorem branch_chunksEmpty_bin {st st1 : AggState}
    (h1 : aggChunksEmptyB st = true)
    (h2 : aggBinary st = .ok st1) : aggChunksEmptyB st1 = true := by
  unfold aggBinary at h2
  repeat' split at h2
  all_goals (try cases h2)
  all_goals (try simp_all [aggChunksEmptyB, docLinesEmptyB, List.all_append])
  all_goals (first | exact h1.1 | exact h1)

/-- The index-header branch leaves every chunk list unchanged. -/
theorem branch_chunksEmpty_idx {st st1 : AggState} {parsed : FieldMap}
    (h1 : aggChunksEmptyB st = true)
    (h2 : aggIndex st parsed = .ok st1) : aggChunksEmptyB st1 = true := by
  unfold aggIndex at h2
  repeat' split at h2
  all_goals (try cases h2)
  all_goals (try simp_all [aggChunksEmptyB, docLinesEmptyB, List.all_append])
  all_goals (first | exact h1.1 | exact h1)

/-- The chunk-header branch pushes a chunk whose line list is empty, so the
invariant is preserved. -/
theorem branch_chunksEmpty_chunk {st st1 : AggState} {parsed : FieldMap}
    (h1 : aggChunksEmptyB st = true)
    (h2 : aggChunkHeader st parsed = .ok st1) : aggChunksEmptyB st1 = true := by
  unfold aggChunkHeader at h2
  repeat' split at h2
  all_goals (try cases h2)
  all_goals (try simp_all [aggChunksEmptyB, docLinesEmptyB, List.all_append])
  all_goals (first | exact h1.1 | exact h1)

/-- The line-diff branch appends only to the standalone `chunk_diff` value,
never to a chunk stored in a document, so the invariant is preserved. -/
theorem branch_chunksEmpty_ld {st st1 : AggState} {parsed : FieldMap}
    (h1 : aggChunksEmptyB st = true)
    (h2 : aggLineDiff st parsed = .ok st1) : aggChunksEmptyB st1 = true := by
  unfold aggLineDiff at h2
  repeat' split at h2
  all_goals (try cases h2)
  all_goals (try simp_all [aggChunksEmptyB, docLinesEmptyB, List.all_append])
  all_goals (first | exact h1.1 | exact h1)

/-- The no-newline branch leaves every chunk list unchanged. -/
theorem branch_chunksEmpty_nn {st st1 : AggState}
    (h1 : aggChunksEmptyB st = true)
    (h2 : aggNoNewline st = .ok st1) : aggChunksEmptyB st1 = true := by
  unfold aggNoNewline at h2
  dsimp only at h2
  repeat' split at h2
  all_goals (try cases h2)
  all_goals (try simp_all [aggChunksEmptyB, docLinesEmptyB])
  all_goals (first | exact h1.1 | exact h1)

set_option maxHeartbeats 1000000 in
/-- Every aggregator step preserves the empty-chunk-lines invariant. -/
theorem aggStep_chunksEmpty {st st1 : AggState} {ev : DiffEvent}
    (h1 : aggChunksEmptyB st = true) (h2 : aggStep st ev = .ok st1) :
    aggChunksEmptyB st1 = true := by
  obtain ⟨state, parsed, raw⟩ := ev
  unfold aggStep at h2
  dsimp only at h2
  repeat' split at h2
  all_goals
    first
    | exact branch_chunksEmpty_fdh h1 h2
    | exact branch_chunksEmpty_nfm h1 h2
    | exact branch_chunksEmpty_om h1 h2
    | exact branch_chunksEmpty_nm h1 h2
    | exact branch_chunksEmpty_dfm h1 h2
    | exact branch_chunksEmpty_fc h1 h2
    | exact branch_chunksEmpty_bin h1 h2
    | exact branch_chunksEmpty_idx h1 h2
    | exact branch_chunksEmpty_chunk h1 h2
    | exact branch_chunksEmpty_ld h1 h2
    | exact branch_chunksEmpty_nn h1 h2
    | cases h2

/-- The aggregator loop preserves the empty-chunk-lines invariant. -/
theorem aggLoop_chunksEmpty {evs : List DiffEvent} :
    ∀ {st st1 : AggState}, aggChunksEmptyB st = true →
      aggLoop st evs = .ok st1 → aggChunksEmptyB st1 = true := by
  induction evs with
  | nil =>
    intro st st1 h1 h2
    cases h2
    exact h1
  | cons ev evs ih =>
    intro st st1 h1 h2
    unfold aggLoop at h2
    split at h2
    · exact ih (aggStep_chunksEmpty h1 (by assumption)) h2
    · cases h2

/-- C1: the claim that each line-diff event appends its `ChunkLine` to the
chunk already pushed onto the current document is false of the code: the
aggregator pushes the chunk and then appends lines only to the separate
`chunk_diff` copy, so every chunk in every document of a successful
aggregation run has an empty line list. -/
theorem c1_agg_output_chunk_lines_empty (evs : List DiffEvent) (docs : List FileDiff)
    (h : aggregator evs = .ok docs) : docs.all docLinesEmptyB = true := by
  unfold aggregator at h
  split at h
  · cases h
  · cases h
    rename_i st heq
    have hinv := aggLoop_chunksEmpty (by decide) heq
    unfold aggChunksEmptyB at hinv
    rcases Bool.and_eq_true_iff.mp hinv with ⟨ha, hb⟩
    rw [List.all_append, ha, Bool.true_and]
    cases hfd : st.file_diff with
    | none => simp [hfd]
    | some d =>
      rw [hfd] at hb
      simp [hfd, Option.toList]
      exact hb

/-- Witness for C1 at the concrete scenario events: the produced document
list consists of `scenarioDoc`, whose single chunk has no lines. -/
theorem c1_agg_output_chunk_lines_empty_witness :
    [scenarioDoc].all docLinesEmptyB = true :=
  c1_agg_output_chunk_lines_empty scenarioEvents [scenarioDoc] rfl

/-- C2: on the nine-line concrete scenario the pipeline produces exactly one
document with all the expected header-level fields, but the single chunk's
line list is empty instead of the four expected `ChunkLine` entries, because
the line-diff events accumulate in the dead standalone `chunk_diff` copy. -/
theorem c2_scenario_output : pipeline scenarioLines = .ok [scenarioDoc] := rfl

/-- C3: a valid line-diff line directly after a no-newline marker is
rejected by the tokenizer: the marker is emitted with the state tag written
in upper case, which none of the allowed-previous-state lists mention, so
the following line falls through every production and fails. -/
theorem c3_line_after_marker_rejected :
    parse_lines
      ["diff --git a/f b/f", "index 1..2 100644", "--- a/f", "+++ b/f",
       "@@ -1 +1 @@", "-x", "\\ No newline at end of file", "+y"] =
      .error (.lineParseError 8 "+y") := rfl

/-- C4: a file whose final chunk line is followed by the no-newline marker
does not make the pipeline succeed with a cleared trailing-newline flag;
the aggregator has a branch only for the lower-case state tag, so the
upper-case event of the tokenizer reaches the final unreachable panic. -/
theorem c4_trailing_marker_panics :
    pipeline
      ["diff --git a/f b/f", "index 1..2 100644", "--- a/f", "+++ b/f",
       "@@ -1 +1 @@", "-x", "\\ No newline at end of file"] =
      .error (.agg (.unexpectedState "NO_NEWLINE")) := rfl

/-- C5: an event stream containing a rename-header event does not produce a
returned typed error: the aggregator reaches the final unreachable panic (a
process abort) whose message carries the offending state but no position. -/
theorem c5_rename_event_panics :
    pipeline ["diff --git a/a b/b", "similarity index 100"] =
      .error (.agg (.unexpectedState "rename_header")) := rfl

/-- C6: a third no-newline event for one file drives the aggregator into the
panic modelled by `tooManyNoNewline` (the Rust code aborts with a
placeholder message), not into a returned typed invariant error. -/
theorem c6_third_marker_panics :
    aggregator
      [("file_diff_header", [("from_file", "f"), ("to_file", "f")],
        "diff --git a/f b/f"),
       ("no_newline", [], "\\ No newline at end of file"),
       ("no_newline", [], "\\ No newline at end of file"),
       ("no_newline", [], "\\ No newline at end of file")] =
      .error .tooManyNoNewline := rfl

/-- C7 counterexample: the error returned for an unclassifiable first line
is the `LineParseError` variant, which carries the one-based index and the
raw line but no expected-production description; the description produced
inside `parse_line` is discarded by the loop. -/
theorem c7_counterexample :
    parse_lines ["hello"] = .error (.lineParseError 1 "hello") ∧
      (ParseError.lineParseError 1 "hello").isExpected = false :=
  ⟨rfl, rfl⟩

set_option maxHeartbeats 1000000 in
/-- Every error constructed inside `parse_line` is the `Expected` variant
carrying a human-readable description of the expected production. -/
theorem parse_line_error_expected {l st : String} {e : ParseError}
    (h : parse_line l st = .error e) : ∃ d, e = .expected d := by
  unfold parse_line at h
  repeat' split at h
  all_goals (first | (cases h; exact ⟨_, rfl⟩) | cases h)

/-- Shape of every tokenizer failure: the loop fails exactly at the first
line `parse_line` rejects, the returned error is the `LineParseError`
variant holding the one-based absolute index and the raw text of that line,
and the description `parse_line` produced for it is discarded. -/
theorem parseLinesAux_error_shape :
    ∀ (ls : List String) (st : String) (idx : Nat) (e : ParseError),
      parseLinesAux st idx ls = .error e →
      ∃ i s evs d, i < ls.length ∧ ls.get? i = some s ∧
        e = .lineParseError (idx + i + 1) s ∧
        parseLinesAux st idx (ls.take i) = .ok evs ∧
        parse_line s (lastStateD st evs) = .error (.expected d) := by
  intro ls
  induction ls with
  | nil =>
    intro st idx e h
    cases h
  | cons l ls ih =>
    intro st idx e h
    unfold parseLinesAux at h
    cases hp : parse_line l st with
    | error err =>
      rw [hp] at h
      cases h
      obtain ⟨d, hd⟩ := parse_line_error_expected hp
      subst hd
      exact ⟨0, l, [], d, by simp, rfl, rfl, rfl, hp⟩
    | ok pr =>
      obtain ⟨ns, m⟩ := pr
      rw [hp] at h
      dsimp only at h
      cases hr : parseLinesAux ns (idx + 1) ls with
      | ok rest =>
        rw [hr] at h
        cases h
      | error e2 =>
        rw [hr] at h
        cases h
        obtain ⟨i, s, evs, d, hi, hs, he, hpre, hpl⟩ := ih ns (idx + 1) _ hr
        have hn : idx + 1 + i + 1 = idx + (i + 1) + 1 := by omega
        refine ⟨i + 1, s, (ns, m, l) :: evs, d, ?_, ?_, ?_, ?_, hpl⟩
        · simpa using Nat.succ_lt_succ hi
        · simpa using hs
        · rw [he, hn]
        · show parseLinesAux st idx (l :: ls.take i) = _
          unfold parseLinesAux
          rw [hp]
          dsimp only
          rw [hpre]

/-- C7, amended: whenever some input line is unclassifiable, `parse_lines`
returns an error carrying the one-based index of the first unclassifiable
line and that line's raw text; `parse_line` does produce a description of
the expected production at that point, but the returned error does not
contain it (the loop discards it). -/
theorem c7_error_carries_index_and_text (lines : List String) (e : ParseError)
    (h : parse_lines lines = .error e) :
    ∃ i s evs d, i < lines.length ∧ lines.get? i = some s ∧
      e = .lineParseError (i + 1) s ∧
      parse_lines (lines.take i) = .ok evs ∧
      parse_line s (lastStateD "start_of_file" evs) = .error (.expected d) := by
  obtain ⟨i, s, evs, d, hi, hs, he, hpre, hpl⟩ :=
    parseLinesAux_error_shape lines "start_of_file" 0 e h
  refine ⟨i, s, evs, d, hi, hs, ?_, hpre, hpl⟩
  simpa using he

/-- Witness for the amended C7 at the single unclassifiable line. -/
theorem c7_error_carries_index_and_text_witness :
    parse_lines ["hello"] = .error (.lineParseError 1 "hello") ∧
      (∃ i s evs d, i < (["hello"] : List String).length ∧
        (["hello"] : List String).get? i = some s ∧
        ParseError.lineParseError 1 "hello" = .lineParseError (i + 1) s ∧
        parse_lines ((["hello"] : List String).take i) = .ok evs ∧
        parse_line s (lastStateD "start_of_file" evs) = .error (.expected d)) :=
  ⟨rfl, c7_error_carries_index_and_text ["hello"] (.lineParseError 1 "hello") rfl⟩

/-- Replacing a key of the map by its current value is the identity. -/
theorem mapInsert_self {m : FieldMap} {k v : String} (h : mapGet m k = some v) :
    mapInsert m k v = m := by
  induction m with
  | nil => cases h
  | cons p m ih =>
    obtain ⟨k2, v2⟩ := p
    unfold mapGet at h
    unfold mapInsert
    by_cases hk : k2 = k
    · rw [if_pos hk] at h
      cases h
      rw [if_pos hk, hk]
    · rw [if_neg hk] at h
      rw [if_neg hk, ih h]

/-- The get-then-insert pairs at the end of the chunk-header branch do not
change the capture map. -/
theorem reinsertKey_id (m : FieldMap) (k : String) : reinsertKey m k = m := by
  unfold reinsertKey
  cases h : mapGet m k with
  | none => rfl
  | some v => exact mapInsert_self h

/-- The chunk-header capture map is determined by the three defaulting
steps alone. -/
theorem chunkFieldMap_eq (c : ChunkCaps) :
    chunkFieldMap c =
      (let m0 := chunkMap c
       let m1 := if hasKey m0 "from_line_count" then m0
                 else mapInsert m0 "from_line_count" "1"
       let m2 := if hasKey m1 "to_line_count" then m1
                 else mapInsert m1 "to_line_count" "1"
       if hasKey m2 "to_line_start" then m2
       else
         match mapGet m2 "from_line_start" with
         | some v => mapInsert m2 "to_line_start" v
         | none => m2) := by
  unfold chunkFieldMap
  rw [reinsertKey_id, reinsertKey_id, reinsertKey_id, reinsertKey_id]

/-- Field lookups on the defaulted chunk-header capture map: the two starts
and the trailer are the raw captures, and each count is the raw capture when
present and the string one otherwise. -/
theorem chunkFieldMap_gets (c : ChunkCaps) :
    mapGet (chunkFieldMap c) "from_line_start" = some c.from_line_start ∧
    mapGet (chunkFieldMap c) "to_line_start" = some c.to_line_start ∧
    mapGet (chunkFieldMap c) "from_line_count" = some (c.from_line_count.getD "1") ∧
    mapGet (chunkFieldMap c) "to_line_count" = some (c.to_line_count.getD "1") ∧
    mapGet (chunkFieldMap c) "line" = some c.line := by
  rw [chunkFieldMap_eq]
  obtain ⟨fls, fc, tls, tc, ln⟩ := c
  cases fc <;> cases tc <;> exact ⟨rfl, rfl, rfl, rfl, rfl⟩

/-- The action capture of a line-diff match is one of the three characters
of the action class. -/
theorem LINE_DIFF_action {s : String} {c : LineDiffCaps} (h : LINE_DIFF s = some c) :
    c.action = "-" ∨ c.action = "+" ∨ c.action = " " := by
  unfold LINE_DIFF at h
  split at h
  · cases h
  · split at h
    · cases h
      rename_i ch rest hch
      rcases hch with h1 | h1 | h1 <;> subst h1 <;> simp
    · cases h

set_option maxHeartbeats 1000000 in
/-- Every event emitted by `parse_line` satisfies the per-state field
obligations that the aggregator's unconditional lookups rely on. -/
theorem parse_line_fieldsOk {l st s : String} {m : FieldMap}
    (h : parse_line l st = .ok (s, m)) : fieldsOkB (s, m, l) = true := by
  unfold parse_line at h
  repeat' split at h
  all_goals (try cases h)
  all_goals (try rfl)
  all_goals (first
    | (rename_i c heq
       split at heq
       · rcases LINE_DIFF_action heq with h1 | h1 | h1 <;>
           (obtain ⟨a, ln⟩ := c; simp only at h1; subst h1; rfl)
       · cases heq)
    | (rename_i c _heq
       obtain ⟨h1, h2, h3, h4, h5⟩ := chunkFieldMap_gets c
       simp [fieldsOkB, hasKey, h1, h2, h3, h4]))

/-- All events of a successful tokenizer run satisfy the field obligations. -/
theorem parseLinesAux_all_fieldsOk :
    ∀ (ls : List String) (st : String) (idx : Nat) (evs : List DiffEvent),
      parseLinesAux st idx ls = .ok evs → evs.all fieldsOkB = true := by
  intro ls
  induction ls with
  | nil =>
    intro st idx evs h
    cases h
    rfl
  | cons l ls ih =>
    intro st idx evs h
    unfold parseLinesAux at h
    cases hp : parse_line l st with
    | error err =>
      rw [hp] at h
      cases h
    | ok pr =>
      obtain ⟨ns, m⟩ := pr
      rw [hp] at h
      dsimp only at h
      cases hr : parseLinesAux ns (idx + 1) ls with
      | error e2 =>
        rw [hr] at h
        cases h
      | ok rest =>
        rw [hr] at h
        cases h
        rw [List.all_cons]
        rw [parse_line_fieldsOk hp, ih ns (idx + 1) rest hr]
        rfl

/-- C10: for every event sequence produced by a successful tokenizer run,
every capture lookup the aggregator performs unconditionally for a given
state finds the field present, and each line-diff action is accepted by
`DiffAction.from_str`, so none of the modelled unwrap panics of those
lookups is reachable. -/
theorem c10_fields_present (lines : List String) (evs : List DiffEvent)
    (h : parse_lines lines = .ok evs) : evs.all fieldsOkB = true :=
  parseLinesAux_all_fieldsOk lines "start_of_file" 0 evs h

/-- Witness for C10 at a one-line input. -/
theorem c10_fields_present_witness :
    ([("file_diff_header", [("from_file", "f"), ("to_file", "f")],
      "diff --git a/f b/f")] : List DiffEvent).all fieldsOkB = true :=
  c10_fields_present ["diff --git a/f b/f"] _ rfl

/-- C9: when tokenization fails, the pipeline result is exactly the parse
error: no events reach the aggregator and no documents are produced. -/
theorem c9_atomicity (lines : List String) (e : ParseError)
    (h : parse_lines lines = .error e) : pipeline lines = .error (.parse e) := by
  unfold pipeline
  rw [h]

/-- Witness for C9 at the single unclassifiable line. -/
theorem c9_atomicity_witness :
    parse_lines ["hello"] = .error (.lineParseError 1 "hello") ∧
      pipeline ["hello"] = .error (.parse (.lineParseError 1 "hello")) :=
  ⟨rfl, c9_atomicity ["hello"] (.lineParseError 1 "hello") rfl⟩

/-- A successful literal-prefix match pins down the head of the list. -/
theorem listDropPre_some_head {p : Char} {ps cs r : List Char}
    (h : listDropPre (p :: ps) cs = some r) : ∃ t, cs = p :: t := by
  cases cs with
  | nil => cases h
  | cons c cs =>
    unfold listDropPre at h
    split at h
    · rename_i hc
      exact ⟨cs, by rw [hc]⟩
    · cases h

/-- A line matching the chunk-header regex starts with an at sign, so it
cannot match the file-diff-header regex. -/
theorem FDH_none_of_chunk {line : String} {c : ChunkCaps}
    (h : CHUNK_HEADER line = some c) : FILE_DIFF_HEADER line = none := by
  unfold CHUNK_HEADER at h
  cases hpre : listDropPre "@@ -".data line.data with
  | none =>
    rw [hpre] at h
    cases h
  | some r0 =>
    have hd4 : "@@ -".data = '@' :: '@' :: ' ' :: '-' :: [] := rfl
    rw [hd4] at hpre
    obtain ⟨t, ht⟩ := listDropPre_some_head hpre
    unfold FILE_DIFF_HEADER
    have hD : "diff --git a/".data = 'd' :: "iff --git a/".data := rfl
    have hnone : listDropPre ('d' :: "iff --git a/".data) ('@' :: t) = none := by
      unfold listDropPre
      rw [if_neg (by decide)]
    rw [ht, hD, hnone]

set_option maxHeartbeats 1000000 in
/-- From any of the three allowed previous states, a line matching the
chunk-header regex is classified as a chunk-header event carrying the
defaulted capture map. -/
theorem c8_parse_reduce (line prev : String) (caps : ChunkCaps)
    (hprev : prev = "b_file_change_header" ∨ prev = "line_diff" ∨ prev = "no_newline")
    (hmatch : CHUNK_HEADER line = some caps) :
    parse_line line prev = .ok ("chunk_header", chunkFieldMap caps) := by
  rcases hprev with h | h | h <;> subst h <;>
    simp [parse_line, tokStates, idxStates, hmatch, FDH_none_of_chunk hmatch]

set_option maxHeartbeats 1000000 in
/-- Whenever the aggregator's chunk-header step succeeds on the defaulted
capture map, the opened chunk records count one on each side whose count
capture was absent. -/
theorem c8_agg_chunk (caps : ChunkCaps) (st st1 : AggState) (raw : String)
    (hstep : aggStep st ("chunk_header", chunkFieldMap caps, raw) = .ok st1) :
    ∃ c, st1.chunk_diff = some c ∧
      (caps.from_line_count = none → c.«from».line_count = 1) ∧
      (caps.to_line_count = none → c.«to».line_count = 1) := by
  obtain ⟨g1, g2, g3, g4, g5⟩ := chunkFieldMap_gets caps
  have hstep2 : aggChunkHeader st (chunkFieldMap caps) = .ok st1 := by
    unfold aggStep at hstep
    dsimp only at hstep
    simpa using hstep
  unfold aggChunkHeader at hstep2
  rw [g1, g2, g3, g4] at hstep2
  dsimp only at hstep2
  cases hfls : parseUsize caps.from_line_start with
  | none =>
    rw [hfls] at hstep2
    cases hstep2
  | some flsN =>
  rw [hfls] at hstep2
  dsimp only at hstep2
  cases htls : parseUsize caps.to_line_start with
  | none =>
    rw [htls] at hstep2
    cases hstep2
  | some tlsN =>
  rw [htls] at hstep2
  dsimp only at hstep2
  cases hflc : parseUsize (caps.from_line_count.getD "1") with
  | none =>
    rw [hflc] at hstep2
    cases hstep2
  | some flcN =>
  rw [hflc] at hstep2
  dsimp only at hstep2
  cases htlc : parseUsize (caps.to_line_count.getD "1") with
  | none =>
    rw [htlc] at hstep2
    cases hstep2
  | some tlcN =>
  rw [htlc] at hstep2
  dsimp only at hstep2
  cases hfd : st.file_diff with
  | none =>
    rw [hfd] at hstep2
    cases hstep2
  | some fd =>
  rw [hfd] at hstep2
  dsimp only at hstep2
  cases hstep2
  refine ⟨⟨⟨flsN, flcN⟩, ⟨tlsN, tlcN⟩, []⟩, rfl, ?_, ?_⟩
  · intro hn
    rw [hn, Option.getD_none] at hflc
    have h1 : parseUsize "1" = some 1 := rfl
    rw [h1] at hflc
    cases hflc
    rfl
  · intro hn
    rw [hn, Option.getD_none] at htlc
    have h1 : parseUsize "1" = some 1 := rfl
    rw [h1] at htlc
    cases htlc
    rfl

/-- C8: a chunk-header line lacking an explicit count on one side is
tokenized successfully from any of its allowed previous states, the omitted
side's count field equals the string one in the emitted event, and whenever
the aggregator's chunk-header step succeeds on that event, the opened
`ChunkDiff` records count one for that side. -/
theorem c8_default_count (line prev : String) (caps : ChunkCaps)
    (hprev : prev = "b_file_change_header" ∨ prev = "line_diff" ∨ prev = "no_newline")
    (hmatch : CHUNK_HEADER line = some caps) :
    ∃ m, parse_line line prev = .ok ("chunk_header", m) ∧
      (caps.from_line_count = none → mapGet m "from_line_count" = some "1") ∧
      (caps.to_line_count = none → mapGet m "to_line_count" = some "1") ∧
      ∀ (st st1 : AggState) (raw : String),
        aggStep st ("chunk_header", m, raw) = .ok st1 →
        ∃ c, st1.chunk_diff = some c ∧
          (caps.from_line_count = none → c.«from».line_count = 1) ∧
          (caps.to_line_count = none → c.«to».line_count = 1) := by
  obtain ⟨g1, g2, g3, g4, g5⟩ := chunkFieldMap_gets caps
  refine ⟨chunkFieldMap caps, c8_parse_reduce line prev caps hprev hmatch, ?_, ?_, ?_⟩
  · intro hn
    rw [hn, Option.getD_none] at g3
    exact g3
  · intro hn
    rw [hn, Option.getD_none] at g4
    exact g4
  · intro st st1 raw hstep
    exact c8_agg_chunk caps st st1 raw hstep

/-- Witness for C8 at a chunk header lacking the from-side count. -/
theorem c8_default_count_witness :
    CHUNK_HEADER "@@ -3 +7,2 @@" = some ⟨"3", none, "7", some "2", ""⟩ ∧
      (∃ m, parse_line "@@ -3 +7,2 @@" "b_file_change_header" = .ok ("chunk_header", m) ∧
        ((⟨"3", none, "7", some "2", ""⟩ : ChunkCaps).from_line_count = none →
          mapGet m "from_line_count" = some "1") ∧
        ((⟨"3", none, "7", some "2", ""⟩ : ChunkCaps).to_line_count = none →
          mapGet m "to_line_count" = some "1") ∧
        ∀ (st st1 : AggState) (raw : String),
          aggStep st ("chunk_header", m, raw) = .ok st1 →
          ∃ c, st1.chunk_diff = some c ∧
            ((⟨"3", none, "7", some "2", ""⟩ : ChunkCaps).from_line_count = none →
              c.«from».line_count = 1) ∧
            ((⟨"3", none, "7", some "2", ""⟩ : ChunkCaps).to_line_count = none →
              c.«to».line_count = 1)) :=
  ⟨rfl, c8_default_count "@@ -3 +7,2 @@" "b_file_change_header"
    ⟨"3", none, "7", some "2", ""⟩ (Or.inl rfl) rfl⟩
